import Mathlib

/-!
Shallow embedding of `src/server.js` (the Wise MVP HTTP server).

The server's request handler is straight-line code: route on the raw URL,
normalise the URL path, percent-decode it (`decodeURIComponent`), join it
with the script directory (`path.join(__dirname, ...)`), read the file and
answer 200 with the MIME-inferred content type, or answer a fixed 404 on
any read error.  All of that is modelled below as pure functions; the
filesystem is an explicit parameter `FileSystem`, and the uncaught
`URIError` that `decodeURIComponent` can throw is modelled as the
`Except.error` outcome of the handler.
-/

namespace WiseServer

/-- Value of a single hexadecimal digit, as accepted by the `%XX` escapes of
`decodeURIComponent` (`0-9`, `a-f`, `A-F`). -/
def hexDigit (c : Char) : Option Nat :=
  if '0' ≤ c ∧ c ≤ '9' then some (c.toNat - '0'.toNat)
  else if 'a' ≤ c ∧ c ≤ 'f' then some (c.toNat - 'a'.toNat + 10)
  else if 'A' ≤ c ∧ c ≤ 'F' then some (c.toNat - 'A'.toNat + 10)
  else none

/-- One token of a URI string: either a literal character or a byte written
as a `%XX` escape. -/
inductive Tok where
  | raw (c : Char)
  | byte (b : Nat)

/-- First pass of `decodeURIComponent`: every `%` must be followed by two hex
digits and yields a byte; any other character is kept literally.  `none`
models the `URIError` thrown on a malformed escape. -/
def tokenize : List Char → Option (List Tok)
  | [] => some []
  | '%' :: h :: l :: rest =>
    match hexDigit h, hexDigit l with
    | some hi, some lo => (tokenize rest).map (fun ts => Tok.byte (hi * 16 + lo) :: ts)
    | _, _ => none
  | '%' :: _ => none
  | c :: rest => (tokenize rest).map (fun ts => Tok.raw c :: ts)

/-- Second pass of `decodeURIComponent`: the `%XX` bytes must form valid
UTF-8 sequences (no overlong forms, no surrogates, at most `U+10FFFF`), with
every continuation byte itself written as a `%XX` escape.  `none` models the
`URIError` thrown on an invalid sequence. -/
def decodeToks : List Tok → Option (List Char)
  | [] => some []
  | Tok.raw c :: rest => (decodeToks rest).map (fun l => c :: l)
  | Tok.byte b :: rest =>
    if b ≤ 0x7F then
      (decodeToks rest).map (fun l => Char.ofNat b :: l)
    else if 0xC2 ≤ b ∧ b ≤ 0xDF then
      match rest with
      | Tok.byte b1 :: rest1 =>
        if 0x80 ≤ b1 ∧ b1 ≤ 0xBF then
          (decodeToks rest1).map (fun l => Char.ofNat ((b - 0xC0) * 0x40 + (b1 - 0x80)) :: l)
        else none
      | _ => none
    else if 0xE0 ≤ b ∧ b ≤ 0xEF then
      match rest with
      | Tok.byte b1 :: Tok.byte b2 :: rest2 =>
        if ((b = 0xE0 ∧ 0xA0 ≤ b1 ∧ b1 ≤ 0xBF) ∨
            (b = 0xED ∧ 0x80 ≤ b1 ∧ b1 ≤ 0x9F) ∨
            (b ≠ 0xE0 ∧ b ≠ 0xED ∧ 0x80 ≤ b1 ∧ b1 ≤ 0xBF)) ∧
           (0x80 ≤ b2 ∧ b2 ≤ 0xBF) then
          (decodeToks rest2).map
            (fun l => Char.ofNat ((b - 0xE0) * 0x1000 + (b1 - 0x80) * 0x40 + (b2 - 0x80)) :: l)
        else none
      | _ => none
    else if 0xF0 ≤ b ∧ b ≤ 0xF4 then
      match rest with
      | Tok.byte b1 :: Tok.byte b2 :: Tok.byte b3 :: rest3 =>
        if ((b = 0xF0 ∧ 0x90 ≤ b1 ∧ b1 ≤ 0xBF) ∨
            (b = 0xF4 ∧ 0x80 ≤ b1 ∧ b1 ≤ 0x8F) ∨
            (b ≠ 0xF0 ∧ b ≠ 0xF4 ∧ 0x80 ≤ b1 ∧ b1 ≤ 0xBF)) ∧
           (0x80 ≤ b2 ∧ b2 ≤ 0xBF) ∧ (0x80 ≤ b3 ∧ b3 ≤ 0xBF) then
          (decodeToks rest3).map
            (fun l => Char.ofNat ((b - 0xF0) * 0x40000 + (b1 - 0x80) * 0x1000 +
              (b2 - 0x80) * 0x40 + (b3 - 0x80)) :: l)
        else none
      | _ => none
    else none

/-- JavaScript `decodeURIComponent`.  `none` models a thrown `URIError`. -/
def decodeURIComponent (s : String) : Option String :=
  match tokenize s.data with
  | none => none
  | some ts => (decodeToks ts).map (fun cs => String.mk cs)

/-- Split a character list on `/`, keeping empty segments (the segment list
of Node's `normalizeString`). -/
def splitSegs : List Char → List (List Char)
  | [] => [[]]
  | '/' :: rest => [] :: splitSegs rest
  | c :: rest =>
    match splitSegs rest with
    | [] => [[c]]
    | s :: ss => (c :: s) :: ss

/-- Join segments back with `/` separators. -/
def joinSegs : List (List Char) → List Char
  | [] => []
  | [s] => s
  | s :: rest => s ++ '/' :: joinSegs rest

/-- One step of Node's `path.posix` segment normalisation: empty and `.`
segments are dropped; `..` pops the previous segment, except that a relative
path keeps leading `..` segments and an absolute path drops `..` at the
root.  The accumulator holds the kept segments in reverse order. -/
def normStep (allowAbove : Bool) (acc : List (List Char)) (seg : List Char) : List (List Char) :=
  if seg = [] ∨ seg = ['.'] then acc
  else if seg = ['.', '.'] then
    match acc with
    | [] => if allowAbove then [['.', '.']] else []
    | top :: tl => if top = ['.', '.'] then (if allowAbove then ['.', '.'] :: acc else acc) else tl
  else seg :: acc

/-- Node's `path.posix.normalize`: collapses repeated slashes, resolves `.`
and `..`, keeps a leading slash (absolute paths) and a trailing slash. -/
def pathNormalize (p : String) : String :=
  match p.data with
  | [] => "."
  | c :: cs =>
    let full := c :: cs
    let isAbs := c == '/'
    let trailing : Bool := match full.getLast? with | some '/' => true | _ => false
    let segs := ((splitSegs full).foldl (normStep (!isAbs)) []).reverse
    let body := joinSegs segs
    if body = [] then
      if isAbs then "/" else if trailing then "./" else "."
    else
      String.mk ((if isAbs then ['/'] else []) ++ body ++ (if trailing then ['/'] else []))

/-- Node's `path.posix.join` restricted to two arguments: empty arguments
are skipped, the rest are joined with `/` and the result is normalised. -/
def pathJoin (a b : String) : String :=
  if a = "" then (if b = "" then "." else pathNormalize b)
  else if b = "" then pathNormalize a
  else pathNormalize (a ++ "/" ++ b)

/-- Node's `path.extname`: the suffix of the basename starting at its last
dot, except that a dot in first position (hidden files), a basename without
a dot, and the basename `..` give the empty extension.  Trailing slashes
are ignored. -/
def extname (p : String) : String :=
  let revNoSlash := p.data.reverse.dropWhile (fun c => c == '/')
  let bRev := revNoSlash.takeWhile (fun c => c != '/')
  let b := bRev.reverse
  match bRev.findIdx? (fun c => c == '.') with
  | none => ""
  | some j =>
    let i := b.length - 1 - j
    if i = 0 then "" else if b = ['.', '.'] then "" else String.mk (b.drop i)

/-- JavaScript `String.prototype.toLowerCase` (exercised here only on ASCII
extensions, where it agrees with `Char.toLower`). -/
def toLowerCase (s : String) : String := String.mk (s.data.map Char.toLower)

/-- The `mimeTypes` table of `server.js`, in source order. -/
def mimeTypes : List (String × String) :=
  [(".html", "text/html; charset=UTF-8"),
   (".css", "text/css; charset=UTF-8"),
   (".js", "text/javascript; charset=UTF-8"),
   (".json", "application/json; charset=UTF-8"),
   (".png", "image/png"),
   (".jpg", "image/jpeg"),
   (".jpeg", "image/jpeg"),
   (".svg", "image/svg+xml")]

/-- `mimeTypes[ext] || 'application/octet-stream'` of `server.js`. -/
def mimeFor (ext : String) : String :=
  (List.lookup ext mimeTypes).getD "application/octet-stream"

/-- Whether the path `p` lies under the directory `root`: equal to it or an
extension strictly below it. -/
def underRoot (root p : String) : Bool :=
  p == root || (root ++ "/").data.isPrefixOf p.data

/-- A JSON value as it occurs in the `data` constant of `server.js`: every
field is either a string or an array of strings. -/
inductive Jval where
  | s (v : String)
  | arr (vs : List String)

/-- Hexadecimal digit character (lowercase), for `\uXXXX` escapes. -/
def hexDigitChar (n : Nat) : Char :=
  if n < 10 then Char.ofNat ('0'.toNat + n) else Char.ofNat ('a'.toNat + n - 10)

/-- Four-digit lowercase hexadecimal rendering of a code unit. -/
def hex4 (n : Nat) : String :=
  String.mk [hexDigitChar (n / 0x1000 % 16), hexDigitChar (n / 0x100 % 16),
    hexDigitChar (n / 16 % 16), hexDigitChar (n % 16)]

/-- `JSON.stringify` escaping of one character: quote, backslash and the
named control escapes get a backslash form, other control characters get
`\uXXXX`, everything else (ASCII and not) is emitted literally. -/
def jsEscape (c : Char) : String :=
  if c = '"' then "\\\""
  else if c = '\\' then "\\\\"
  else if c = '\x08' then "\\b"
  else if c = '\x09' then "\\t"
  else if c = '\x0a' then "\\n"
  else if c = '\x0c' then "\\f"
  else if c = '\x0d' then "\\r"
  else if c.toNat < 0x20 then "\\u" ++ hex4 c.toNat
  else String.mk [c]

/-- `JSON.stringify` of a string value. -/
def jsQuote (s : String) : String :=
  "\"" ++ String.mk (s.data.foldr (fun c acc => (jsEscape c).data ++ acc) []) ++ "\""

/-- Comma-separated rendering of a list of already-rendered JSON texts. -/
def commaSep : List String → String
  | [] => ""
  | [x] => x
  | x :: rest => x ++ "," ++ commaSep rest

/-- `JSON.stringify` of one field value of the `data` constant. -/
def jvalToJson : Jval → String
  | Jval.s v => jsQuote v
  | Jval.arr vs => "[" ++ commaSep (vs.map jsQuote) ++ "]"

/-- `JSON.stringify` of an object whose fields are given in insertion
order, as JavaScript serialises a plain object with string keys. -/
def stringifyObj (fields : List (String × Jval)) : String :=
  "\x7b" ++ commaSep (fields.map (fun kv => jsQuote kv.1 ++ ":" ++ jvalToJson kv.2)) ++ "\x7d"

/-- The `data` constant of `server.js`: the Wise MVP product summary, with
its eight fields in source (insertion) order and their literal values. -/
def data : List (String × Jval) :=
  [("problem", Jval.s "Moving money across borders with traditional banks is slow, costly and lacks transparency. Exchange rates often include hidden mark‑ups and customers rarely know the full cost upfront."),
   ("solution", Jval.arr
     ["Open a single account to hold and convert more than 40 currencies.",
      "Send payments to over 70 countries using the mid‑market rate and low fees.",
      "Spend or withdraw cash in 160+ countries with a Wise card; freeze and unfreeze the card in‑app.",
      "Transfers are protected with two‑factor authentication, encryption and biometrics."]),
   ("coreFeatures", Jval.arr
     ["Multi‑currency wallet with instant conversion between 40+ currencies.",
      "Low, transparent transfer fees starting from around 0.43%.",
      "Fast transfers — over 65% arrive in under 20 seconds.",
      "Local account details for 9 currencies so you can get paid like a local.",
      "Wise card for global spending and cash withdrawals with automatic currency conversion.",
      "In‑app dashboard to track balances, transfers and transaction history."]),
   ("targetUsers", Jval.arr
     ["Freelancers and remote workers paid in multiple currencies.",
      "Expats and travellers managing money abroad.",
      "Small businesses paying overseas suppliers and contractors.",
      "Individuals sending money to family in other countries."]),
   ("valueProposition", Jval.arr
     ["Real mid‑market exchange rates with no hidden mark‑ups.",
      "Faster transfers than traditional banks — many arrive instantly.",
      "Transparent pricing displayed before you send.",
      "Local account details make receiving payments simple and often free.",
      "Regulated money services business, using two‑factor authentication and encryption."]),
   ("successMetrics", Jval.arr
     ["Growth in transfer volume and repeat transactions.",
      "Retention of active users and frequency of app usage.",
      "App Store rating (currently 4.7/5 with 91k+ reviews).",
      "Expansion of the customer base (16 million+ users worldwide)."]),
   ("techStack", Jval.arr
     ["Native apps for iOS and Android devices.",
      "Back‑end integrations with global banking networks and payment rails.",
      "Security features including two‑factor authentication, encryption and biometric logins.",
      "Wise operates as a Money Service Business rather than a bank, safeguarding funds through partner banks."]),
   ("monetization", Jval.arr
     ["Small flat fees and a low margin on currency conversion.",
      "Interest on USD balances for eligible US customers."])]

/-- An HTTP response as the handler writes it: status code, the value of
the `Content-Type` header passed to `writeHead`, and the body passed to
`res.end`. -/
structure Response where
  status : Nat
  contentType : String
  body : String
  deriving DecidableEq

/-- The process environment the handler can observe: the working directory
of the process and the directory containing `server.js` (`__dirname`).
The source only ever uses `dirname`. -/
structure Env where
  cwd : String
  dirname : String

/-- The filesystem as `fs.readFile` exposes it: a path either reads to file
content or fails with an error (whose reason the handler never inspects
beyond truthiness). -/
abbrev FileSystem := String → Except String String

/-- Body of the `/api/data` response: `JSON.stringify(data)`. -/
def apiBody : String := stringifyObj data

/-- The response written for `/api/data`. -/
def apiResponse : Response :=
  ⟨200, "application/json; charset=UTF-8", apiBody⟩

/-- The fixed response written on any `serveStatic` failure. -/
def notFound : Response :=
  ⟨404, "text/plain; charset=UTF-8", "404 Not Found"⟩

/-- URL normalisation of the handler: `req.url || '/index.html'` followed by
`if (urlPath === '/' || urlPath === '') urlPath = '/index.html'`. -/
def normalizeUrl (url : Option String) : String :=
  let u := match url with
    | none => "/index.html"
    | some s => if s = "" then "/index.html" else s
  if u = "/" ∨ u = "" then "/index.html" else u

/-- The filesystem path handed to `fs.readFile` for a non-API request:
`path.join(__dirname, decodeURIComponent(urlPath))`.  `none` models the
uncaught `URIError` of `decodeURIComponent`. -/
def requestedFile (e : Env) (url : Option String) : Option String :=
  (decodeURIComponent (normalizeUrl url)).map (fun dec => pathJoin e.dirname dec)

/-- Modelled from the spec: the resolution the spec describes, "rooted at
the server's working directory" — the decoded URL path joined with the
process working directory instead of the script directory.  Only used to
compare against `requestedFile`, which is the source's behaviour. -/
def specResolvedFile (e : Env) (url : Option String) : Option String :=
  (decodeURIComponent (normalizeUrl url)).map (fun dec => pathJoin e.cwd dec)

/-- The non-API branch of the handler: normalise, decode, join, read, and
answer 200 with the MIME-inferred type or the fixed 404.  `Except.error ()`
is the uncaught `URIError` escaping the handler. -/
def staticHandle (fs : FileSystem) (e : Env) (url : Option String) : Except Unit Response :=
  match requestedFile e url with
  | none => Except.error ()
  | some p =>
    match fs p with
    | Except.error _ => Except.ok notFound
    | Except.ok content => Except.ok ⟨200, mimeFor (toLowerCase (extname p)), content⟩

/-- The whole request handler of `server.js`: `req.url === '/api/data'`
short-circuits to the JSON responder, everything else goes to the static
file path. -/
def handle (fs : FileSystem) (e : Env) (url : Option String) : Except Unit Response :=
  if url = some "/api/data" then Except.ok apiResponse
  else staticHandle fs e url

/-- The mutable state of the server process: just the product summary
object (which the code never writes after construction). -/
structure ServerState where
  product : List (String × Jval)

/-- The server state at process start. -/
def initState : ServerState := ⟨data⟩

/-- The handler as a state transformer, to express statelessness: it
serialises the product object held in the state and returns the state
unchanged. -/
def handleWithState (st : ServerState) (fs : FileSystem) (e : Env) (url : Option String) :
    Except Unit Response × ServerState :=
  (if url = some "/api/data" then
     Except.ok ⟨200, "application/json; charset=UTF-8", stringifyObj st.product⟩
   else staticHandle fs e url,
   st)

/-- JavaScript whitespace trim, on the ASCII whitespace relevant here. -/
def jsTrim (s : String) : String :=
  String.mk (((s.data.dropWhile Char.isWhitespace).reverse.dropWhile Char.isWhitespace).reverse)

/-- `Number.parseInt(s, 10)`: trim, optional sign, then the longest leading
digit run; `none` models `NaN` (no digits). -/
def jsParseInt10 (s : String) : Option Int :=
  let t := (jsTrim s).data
  let signed : Int × List Char :=
    match t with
    | '-' :: rest => (-1, rest)
    | '+' :: rest => (1, rest)
    | cs => (1, cs)
  let digits := signed.2.takeWhile Char.isDigit
  if digits = [] then none
  else some (signed.1 * (digits.foldl (fun acc c => acc * 10 + (c.toNat - '0'.toNat)) 0 : Nat))

/-- `Number.parseInt(process.env.PORT, 10) || 3000`: an unset variable reads
as the string `"undefined"`, `NaN` and `0` are falsy and fall back to 3000. -/
def portOf (envPORT : Option String) : Int :=
  let s := match envPORT with
    | none => "undefined"
    | some v => v
  match jsParseInt10 s with
  | none => 3000
  | some n => if n = 0 then 3000 else n

end WiseServer

deriving instance DecidableEq for Except

section Scratch
open WiseServer
example : decodeURIComponent "/index.html" = some "/index.html" := by decide
example : decodeURIComponent "/%2e%2e/secret.txt" = some "/../secret.txt" := by decide
example : decodeURIComponent "/%" = none := by decide
example : decodeURIComponent "/%C3%A9" = some "/é" := by decide
example : decodeURIComponent "/%C0%80" = none := by decide
example : pathJoin "/srv/site" "/../secret.txt" = "/srv/secret.txt" := by decide
example : pathJoin "/d" "/index.html" = "/d/index.html" := by decide
example : pathJoin "/" "/index.html" = "/index.html" := by decide
example : pathJoin "/d" "/" = "/d/" := by decide
example : extname "/d/index.html" = ".html" := by decide
example : extname "/d/.hidden" = "" := by decide
example : extname "/d/noext" = "" := by decide
example : extname "/d/a.b.CSS" = ".CSS" := by decide
example : extname "/d/.." = "" := by decide
example : extname "/d/style.css?v=1" = ".css?v=1" := by decide
example : toLowerCase ".CSS" = ".css" := by decide
example : mimeFor ".css" = "text/css; charset=UTF-8" := by decide
example : mimeFor ".xyz" = "application/octet-stream" := by decide
example : portOf (some "8080") = 8080 := by decide
example : portOf none = 3000 := by decide
example : portOf (some "abc") = 3000 := by decide
example : portOf (some "0") = 3000 := by decide
example : normalizeUrl none = "/index.html" := by decide
example : normalizeUrl (some "/") = "/index.html" := by decide
example : requestedFile ⟨"/w", "/d"⟩ (some "/x.css") = some "/d/x.css" := by decide
example : handle (fun _ => Except.error "ENOENT") ⟨"/w", "/d"⟩ (some "/%") = Except.error () := by
  decide
example : handle (fun _ => Except.error "ENOENT") ⟨"/w", "/d"⟩ (some "/nope") =
    Except.ok notFound := by decide
example : handle (fun p => if p = "/d/x.css" then Except.ok "css-bytes" else Except.error "e")
    ⟨"/w", "/d"⟩ (some "/x.css") =
    Except.ok ⟨200, "text/css; charset=UTF-8", "css-bytes"⟩ := by decide
example : ∀ fs e, handle fs e (some "/api/data") = Except.ok apiResponse := fun _ _ => rfl
end Scratch

open WiseServer

/-- C1: every request whose URL is exactly `/api/data` gets a 200 response
with content type `application/json; charset=UTF-8` whose body is the JSON
serialisation of the constant product summary with exactly its eight fields
in source order; every other URL goes to the static file path, never to the
JSON responder. -/
theorem claim_C1 :
    (∀ fs e, handle fs e (some "/api/data") = Except.ok apiResponse)
    ∧ apiResponse.status = 200
    ∧ apiResponse.contentType = "application/json; charset=UTF-8"
    ∧ apiResponse.body = stringifyObj data
    ∧ data.map Prod.fst =
      ["problem", "solution", "coreFeatures", "targetUsers", "valueProposition",
       "successMetrics", "techStack", "monetization"]
    ∧ (∀ fs e url, url ≠ some "/api/data" → handle fs e url = staticHandle fs e url) := by
  refine ⟨fun fs e => rfl, rfl, rfl, rfl, rfl, fun fs e url h => ?_⟩
  simp [handle, h]

/-- Witness for C1 at a concrete non-API request. -/
theorem claim_C1_witness :
    handle (fun _ => Except.error "ENOENT") ⟨"/w", "/d"⟩ (some "/x.css") =
      staticHandle (fun _ => Except.error "ENOENT") ⟨"/w", "/d"⟩ (some "/x.css") :=
  claim_C1.2.2.2.2.2 _ _ _ (by decide)

/-- C2: a non-API request whose resolved path reads successfully answers 200
with the file's bytes as body and the MIME-table entry for the lowercased
extension as content type; the table holds exactly the eight source entries
and every other extension falls back to `application/octet-stream`. -/
theorem claim_C2 :
    (∀ (fs : FileSystem) e url p content, url ≠ some "/api/data" →
      requestedFile e url = some p → fs p = Except.ok content →
      handle fs e url = Except.ok ⟨200, mimeFor (toLowerCase (extname p)), content⟩)
    ∧ mimeFor ".html" = "text/html; charset=UTF-8"
    ∧ mimeFor ".css" = "text/css; charset=UTF-8"
    ∧ mimeFor ".js" = "text/javascript; charset=UTF-8"
    ∧ mimeFor ".json" = "application/json; charset=UTF-8"
    ∧ mimeFor ".png" = "image/png"
    ∧ mimeFor ".jpg" = "image/jpeg"
    ∧ mimeFor ".jpeg" = "image/jpeg"
    ∧ mimeFor ".svg" = "image/svg+xml"
    ∧ (∀ ext, ext ∉ mimeTypes.map Prod.fst → mimeFor ext = "application/octet-stream") := by
  refine ⟨?_, by decide, by decide, by decide, by decide, by decide, by decide, by decide,
    by decide, ?_⟩
  · intro fs e url p content hurl hreq hfs
    simp [handle, hurl, staticHandle, hreq, hfs]
  · intro ext h
    simp only [mimeTypes, List.map_cons, List.map_nil, List.mem_cons,
      List.not_mem_nil, or_false, not_or] at h
    obtain ⟨h1, h2, h3, h4, h5, h6, h7, h8⟩ := h
    simp [mimeFor, mimeTypes, List.lookup, beq_eq_false_iff_ne.mpr h1,
      beq_eq_false_iff_ne.mpr h2, beq_eq_false_iff_ne.mpr h3, beq_eq_false_iff_ne.mpr h4,
      beq_eq_false_iff_ne.mpr h5, beq_eq_false_iff_ne.mpr h6, beq_eq_false_iff_ne.mpr h7,
      beq_eq_false_iff_ne.mpr h8]

/-- Witness for C2 at a concrete readable `.css` file. -/
theorem claim_C2_witness :
    handle (fun p => if p = "/d/x.css" then Except.ok "css-bytes" else Except.error "ENOENT")
      ⟨"/w", "/d"⟩ (some "/x.css") =
      Except.ok ⟨200, mimeFor (toLowerCase (extname "/d/x.css")), "css-bytes"⟩ :=
  claim_C2.1 _ _ _ _ _ (by decide) (by decide) (by decide)

/-- C3: a non-API request whose file read fails, whatever the error value,
answers exactly 404 with body `404 Not Found`; the response is the same
constant for every error, so the reason is not distinguishable from it. -/
theorem claim_C3 :
    ∀ (fs : FileSystem) e url p err, url ≠ some "/api/data" →
      requestedFile e url = some p → fs p = Except.error err →
      handle fs e url = Except.ok notFound := by
  intro fs e url p err hurl hreq hfs
  simp [handle, hurl, staticHandle, hreq, hfs]

/-- Witness for C3 at a concrete failing read. -/
theorem claim_C3_witness :
    handle (fun _ => Except.error "EACCES") ⟨"/w", "/d"⟩ (some "/secret.png") =
      Except.ok notFound :=
  claim_C3 _ _ _ "/d/secret.png" "EACCES" (by decide) (by decide) (by decide)

/-- C4: an absent, empty or root URL is normalised to `/index.html`, so its
response equals that of a direct request to `/index.html`; every other URL
passes through the normalisation unchanged. -/
theorem claim_C4 :
    (∀ fs e, handle fs e none = handle fs e (some "/index.html"))
    ∧ (∀ fs e, handle fs e (some "") = handle fs e (some "/index.html"))
    ∧ (∀ fs e, handle fs e (some "/") = handle fs e (some "/index.html"))
    ∧ normalizeUrl none = "/index.html"
    ∧ normalizeUrl (some "") = "/index.html"
    ∧ normalizeUrl (some "/") = "/index.html"
    ∧ (∀ s, s ≠ "" → s ≠ "/" → normalizeUrl (some s) = s) := by
  refine ⟨fun fs e => rfl, fun fs e => rfl, fun fs e => rfl, by decide, by decide, by decide,
    fun s h1 h2 => ?_⟩
  simp [normalizeUrl, h1, h2]

/-- Witness for C4 at a concrete pass-through URL. -/
theorem claim_C4_witness : normalizeUrl (some "/about.html") = "/about.html" :=
  claim_C4.2.2.2.2.2.2 "/about.html" (by decide) (by decide)

/-- C5 counterexample: the request URL `/%` has malformed percent-encoding,
`decodeURIComponent` throws, and the handler produces an uncaught error — a
third outcome that is neither a 200 nor the fixed 404. -/
theorem claim_C5_cex :
    handle (fun _ => Except.error "ENOENT") ⟨"/w", "/d"⟩ (some "/%") = Except.error () := by
  decide

/-- C5 (amended): for every request whose URL percent-decodes successfully,
the handler produces exactly one of two outcomes — a 200 success response or
the fixed 404 not-found response; a URL with malformed percent-encoding
instead makes the decoding step throw an uncaught `URIError`. -/
theorem claim_C5 :
    ∀ (fs : FileSystem) e url dec, decodeURIComponent (normalizeUrl url) = some dec →
      ∃ r, handle fs e url = Except.ok r ∧ (r = notFound ∨ r.status = 200) := by
  intro fs e url dec hdec
  by_cases hurl : url = some "/api/data"
  · exact ⟨apiResponse, by simp [handle, hurl], Or.inr rfl⟩
  · cases hfs : fs (pathJoin e.dirname dec) with
    | error err =>
      exact ⟨notFound, by simp [handle, hurl, staticHandle, requestedFile, hdec, hfs], Or.inl rfl⟩
    | ok content =>
      exact ⟨⟨200, mimeFor (toLowerCase (extname (pathJoin e.dirname dec))), content⟩,
        by simp [handle, hurl, staticHandle, requestedFile, hdec, hfs], Or.inr rfl⟩

/-- Witness for C5 at a concrete well-formed URL. -/
theorem claim_C5_witness :
    ∃ r, handle (fun _ => Except.error "ENOENT") ⟨"/w", "/d"⟩ (some "/nope") = Except.ok r ∧
      (r = notFound ∨ r.status = 200) :=
  claim_C5 _ _ _ "/nope" (by decide)

/-- C6: the server is deterministic and stateless — the handler never
changes the server state (so the product summary is never mutated), handling
from the initial state agrees with the pure handler, issuing the same
request twice in succession yields identical responses, and the `/api/data`
response is the same whatever the filesystem or environment. -/
theorem claim_C6 :
    (∀ st fs e url, (handleWithState st fs e url).2 = st)
    ∧ (∀ fs e url, (handleWithState initState fs e url).1 = handle fs e url)
    ∧ (∀ fs e url,
        (handleWithState (handleWithState initState fs e url).2 fs e url).1 =
          (handleWithState initState fs e url).1)
    ∧ (∀ fs1 fs2 e1 e2, handle fs1 e1 (some "/api/data") = handle fs2 e2 (some "/api/data")) :=
  ⟨fun _ _ _ _ => rfl, fun _ _ _ => rfl, fun _ _ _ => rfl, fun _ _ _ _ => rfl⟩

/-- C7: the listening port is `parseInt(PORT, 10)`; the string `8080` gives
port 8080, an absent variable gives the default 3000, and any non-numeric
value (one `parseInt` maps to `NaN`) also gives 3000. -/
theorem claim_C7 :
    portOf (some "8080") = 8080
    ∧ portOf none = 3000
    ∧ (∀ s, jsParseInt10 s = none → portOf (some s) = 3000) := by
  refine ⟨by decide, by decide, fun s h => ?_⟩
  simp [portOf, h]

/-- Witness for C7 at a concrete non-numeric value. -/
theorem claim_C7_witness : portOf (some "abc") = 3000 :=
  claim_C7.2.2 "abc" (by decide)

/-- C8: path resolution is a single join with no containment check — the
URL `/%2e%2e/secret.txt`, whose percent-encoded `..` decodes to a traversal
segment, resolves to a filesystem path outside the static root. -/
theorem claim_C8 :
    ∃ url dec,
      decodeURIComponent url = some dec ∧
      requestedFile ⟨"/srv/site", "/srv/site"⟩ (some url) = some (pathJoin "/srv/site" dec) ∧
      pathJoin "/srv/site" dec = "/srv/secret.txt" ∧
      underRoot "/srv/site" "/srv/secret.txt" = false :=
  ⟨"/%2e%2e/secret.txt", "/../secret.txt", by decide, by decide, by decide, by decide⟩

/-- C9 counterexample: with working directory `/workdir` and script
directory `/srv/app`, the handler resolves `/style.css` to
`/srv/app/style.css`, not to the working-directory path the claim states;
a file present only at the working-directory path still answers 404. -/
theorem claim_C9_cex :
    requestedFile ⟨"/workdir", "/srv/app"⟩ (some "/style.css") = some "/srv/app/style.css" ∧
    specResolvedFile ⟨"/workdir", "/srv/app"⟩ (some "/style.css") = some "/workdir/style.css" ∧
    requestedFile ⟨"/workdir", "/srv/app"⟩ (some "/style.css") ≠
      specResolvedFile ⟨"/workdir", "/srv/app"⟩ (some "/style.css") ∧
    staticHandle
      (fun p => if p = "/workdir/style.css" then Except.ok "css-bytes" else Except.error "ENOENT")
      ⟨"/workdir", "/srv/app"⟩ (some "/style.css") = Except.ok notFound :=
  ⟨by decide, by decide, by decide, by decide⟩

/-- C9 (amended): for every non-API request, the filesystem path handed to
the file reader is the directory containing the server script (`__dirname`)
joined with the percent-decoded URL path — not the process working
directory. -/
theorem claim_C9 :
    ∀ e url dec, decodeURIComponent (normalizeUrl url) = some dec →
      requestedFile e url = some (pathJoin e.dirname dec) := by
  intro e url dec h
  simp [requestedFile, h]

/-- Witness for C9 at a concrete request. -/
theorem claim_C9_witness :
    requestedFile ⟨"/w", "/d"⟩ (some "/a.css") = some (pathJoin "/d" "/a.css") :=
  claim_C9 ⟨"/w", "/d"⟩ (some "/a.css") "/a.css" (by decide)

/-- C10: query strings are never stripped — `/api/data?x=1` is routed to the
file resolver, the `?query` suffix is joined into the filesystem path, and
the request answers 404 unless a file whose literal name includes the
question mark exists (in which case it is served). -/
theorem claim_C10 :
    (∀ fs e, handle fs e (some "/api/data?x=1") = staticHandle fs e (some "/api/data?x=1"))
    ∧ (∀ e, requestedFile e (some "/style.css?v=1") = some (pathJoin e.dirname "/style.css?v=1"))
    ∧ (∀ (fs : FileSystem) e err, fs (pathJoin e.dirname "/style.css?v=1") = Except.error err →
        handle fs e (some "/style.css?v=1") = Except.ok notFound)
    ∧ (∀ (fs : FileSystem) e content,
        fs (pathJoin e.dirname "/style.css?v=1") = Except.ok content →
        handle fs e (some "/style.css?v=1") = Except.ok
          ⟨200, mimeFor (toLowerCase (extname (pathJoin e.dirname "/style.css?v=1"))), content⟩) := by
  have hd : decodeURIComponent (normalizeUrl (some "/style.css?v=1")) =
      some "/style.css?v=1" := by decide
  refine ⟨fun fs e => rfl, fun e => by simp [requestedFile, hd], ?_, ?_⟩
  · intro fs e err h
    have hroute : handle fs e (some "/style.css?v=1") =
        staticHandle fs e (some "/style.css?v=1") := rfl
    rw [hroute]
    simp [staticHandle, requestedFile, hd, h]
  · intro fs e content h
    have hroute : handle fs e (some "/style.css?v=1") =
        staticHandle fs e (some "/style.css?v=1") := rfl
    rw [hroute]
    simp [staticHandle, requestedFile, hd, h]

/-- Witness for C10 at a concrete filesystem with no `?`-named file. -/
theorem claim_C10_witness :
    handle (fun _ => Except.error "ENOENT") ⟨"/w", "/d"⟩ (some "/style.css?v=1") =
      Except.ok notFound :=
  claim_C10.2.2.1 _ _ "ENOENT" rfl
